import Mathlib

/-!
Verification of the clawhub publish quality gate and comment moderation
engine, shallowly embedded from `src/convex/comments.ts` and
`src/convex/comments.handlers.ts`.

Conventions of the embedding:
* JavaScript numbers that are used as integers become `Nat`/`Int`;
  the unique-word ratio (a JS float in `[0, 1]`) becomes `Rat`.
* Convex document ids of every table become `Nat`.
* `undefined`-able document fields become `Option` fields; a Convex
  `patch` with an `undefined` value clears the field, which the model
  renders as setting the `Option` field to `none`.
* Strings are modelled as Lean strings over their character lists; the
  JavaScript whitespace class, `trim`, `toLowerCase` and the regexes of
  the fingerprinting code are modelled for the ASCII fragment.
* A mutation handler becomes a pure function from the database state
  (plus the authenticated actor and the value of `Date.now()`) to the
  database state at the point of return or throw, paired with
  `Except String result`: a thrown `Error` is `.error message`.
-/

/-! ## Quality gate: trust tiers, signals, scoring, decision
    (from `src/convex/comments.ts`) -/

inductive TrustTier
  | low
  | medium
  | trusted
deriving Repr, DecidableEq

/-- The derived quality signals of `computeQualitySignals`; here they are
the free input of the scoring and decision functions. -/
structure QualitySignals where
  bodyChars : Nat
  bodyWords : Nat
  uniqueWordRatio : Rat
  headingCount : Nat
  bulletCount : Nat
  templateMarkerHits : Nat
  genericSummary : Bool
  structuralFingerprint : String
deriving Repr, DecidableEq

/-- The `signals` payload copied into a `QualityAssessment` (the source
copies every field except the structural fingerprint). -/
structure QualitySignalsOut where
  bodyChars : Nat
  bodyWords : Nat
  uniqueWordRatio : Rat
  headingCount : Nat
  bulletCount : Nat
  templateMarkerHits : Nat
  genericSummary : Bool
deriving Repr, DecidableEq

inductive QualityDecision
  | pass
  | quarantine
  | reject
deriving Repr, DecidableEq

structure QualityAssessment where
  score : Int
  decision : QualityDecision
  reason : String
  trustTier : TrustTier
  similarRecentCount : Nat
  signals : QualitySignalsOut
deriving Repr, DecidableEq

/-- `scoreQuality` of `comments.ts`: sequential penalty subtraction from
100, the marketing-marker penalty capped at 28, floored at 0. -/
def scoreQuality (signals : QualitySignals) : Int :=
  let score : Int := 100
  let score := if signals.bodyChars < 250 then score - 28 else score
  let score := if signals.bodyWords < 80 then score - 24 else score
  let score := if signals.uniqueWordRatio < (45 : Rat) / 100 then score - 14 else score
  let score := if signals.headingCount < 2 then score - 10 else score
  let score := if signals.bulletCount < 3 then score - 8 else score
  let score := score - min 28 ((signals.templateMarkerHits : Int) * 9)
  let score := if signals.genericSummary then score - 20 else score
  max 0 score

/-- `evaluateQuality` of `comments.ts`. -/
def evaluateQuality (signals : QualitySignals) (trustTier : TrustTier)
    (similarRecentCount : Nat) : QualityAssessment :=
  let score := scoreQuality signals
  let rejectWordsThreshold : Nat :=
    if trustTier = .low then 45 else if trustTier = .medium then 35 else 28
  let rejectCharsThreshold : Nat :=
    if trustTier = .low then 260 else if trustTier = .medium then 180 else 140
  let quarantineScoreThreshold : Nat :=
    if trustTier = .low then 72 else if trustTier = .medium then 60 else 50
  let similarityRejectThreshold : Nat :=
    if trustTier = .low then 5 else if trustTier = .medium then 8 else 12
  let signalsOut : QualitySignalsOut :=
    { bodyChars := signals.bodyChars
      bodyWords := signals.bodyWords
      uniqueWordRatio := signals.uniqueWordRatio
      headingCount := signals.headingCount
      bulletCount := signals.bulletCount
      templateMarkerHits := signals.templateMarkerHits
      genericSummary := signals.genericSummary }
  let hardReject : Bool :=
    decide (signals.bodyWords < rejectWordsThreshold) ||
    decide (signals.bodyChars < rejectCharsThreshold) ||
    (decide (3 ≤ signals.templateMarkerHits) && decide (signals.bodyWords < 120)) ||
    decide (similarityRejectThreshold ≤ similarRecentCount)
  if hardReject then
    let reason :=
      if similarityRejectThreshold ≤ similarRecentCount then
        "Skill appears to be repeated template spam from this account."
      else
        "Skill content is too thin or templated. Add meaningful, specific documentation."
    { score := score
      decision := .reject
      reason := reason
      trustTier := trustTier
      similarRecentCount := similarRecentCount
      signals := signalsOut }
  else if score < (quarantineScoreThreshold : Int) then
    { score := score
      decision := .quarantine
      reason := "Skill quality is low and requires moderation review before being listed."
      trustTier := trustTier
      similarRecentCount := similarRecentCount
      signals := signalsOut }
  else
    { score := score
      decision := .pass
      reason := "Quality checks passed."
      trustTier := trustTier
      similarRecentCount := similarRecentCount
      signals := signalsOut }

/-! Spec-side restatements of the tier thresholds, written from the
claim's words, to be compared with the thresholds inlined in
`evaluateQuality`. -/

def specWordFloor : TrustTier → Nat
  | .low => 45
  | .medium => 35
  | .trusted => 28

def specCharFloor : TrustTier → Nat
  | .low => 260
  | .medium => 180
  | .trusted => 140

def specQuarantineCeil : TrustTier → Nat
  | .low => 72
  | .medium => 60
  | .trusted => 50

def specDupCeil : TrustTier → Nat
  | .low => 5
  | .medium => 8
  | .trusted => 12

/-- The claim's hard-reject condition, written from the spec's words. -/
def specHardReject (s : QualitySignals) (t : TrustTier) (d : Nat) : Prop :=
  s.bodyWords < specWordFloor t ∨ s.bodyChars < specCharFloor t ∨
    (3 ≤ s.templateMarkerHits ∧ s.bodyWords < 120) ∨ specDupCeil t ≤ d

/-- C3: the decision engine hard-rejects iff the word count is below the
tier floor (low 45 / medium 35 / trusted 28), or the char count is below
the tier floor (260/180/140), or marketing hits ≥ 3 with word count
< 120, or the recent-duplicate count reaches the tier ceiling (5/8/12);
the reject reason is the repeated-template-spam string iff the
duplicate trigger fired, else the thin/templated string; when not
rejected the decision is quarantine iff the score is below the tier
ceiling (72/60/50), else pass. -/
theorem evaluateQuality_decision_spec (s : QualitySignals) (t : TrustTier) (d : Nat) :
    ((evaluateQuality s t d).decision = .reject ↔ specHardReject s t d) ∧
    ((evaluateQuality s t d).reason =
        "Skill appears to be repeated template spam from this account." ↔
      specDupCeil t ≤ d) ∧
    ((evaluateQuality s t d).reason =
        "Skill content is too thin or templated. Add meaningful, specific documentation." ↔
      (specHardReject s t d ∧ d < specDupCeil t)) ∧
    ((evaluateQuality s t d).decision = .quarantine ↔
      (¬ specHardReject s t d ∧ scoreQuality s < (specQuarantineCeil t : Int))) ∧
    ((evaluateQuality s t d).decision = .pass ↔
      (¬ specHardReject s t d ∧ (specQuarantineCeil t : Int) ≤ scoreQuality s)) := by
  have hne1 :
      ("Skill appears to be repeated template spam from this account." : String) ≠
        "Skill content is too thin or templated. Add meaningful, specific documentation." := by
    decide
  have hne2 :
      ("Skill quality is low and requires moderation review before being listed." : String) ≠
        "Skill appears to be repeated template spam from this account." := by
    decide
  have hne3 :
      ("Skill quality is low and requires moderation review before being listed." : String) ≠
        "Skill content is too thin or templated. Add meaningful, specific documentation." := by
    decide
  have hne4 :
      ("Quality checks passed." : String) ≠
        "Skill appears to be repeated template spam from this account." := by
    decide
  have hne5 :
      ("Quality checks passed." : String) ≠
        "Skill content is too thin or templated. Add meaningful, specific documentation." := by
    decide
  cases t <;>
    simp only [evaluateQuality, specHardReject, specWordFloor, specCharFloor,
      specQuarantineCeil, specDupCeil, Bool.or_eq_true, Bool.and_eq_true,
      decide_eq_true_eq, reduceCtorEq, if_true, if_false] <;>
    split_ifs <;>
    simp_all <;>
    omega

/-- C4: the quality score is 100 minus the sum of the applicable
penalties (28 for short char count, 24 for short word count, 14 for low
unique-word ratio, 10 for few headings, 8 for few bullets, 9 per
marketing hit capped at 28, 20 for a generic summary), floored at 0. -/
theorem scoreQuality_closed_form (s : QualitySignals) :
    scoreQuality s =
      max 0 (100 -
        ((if s.bodyChars < 250 then (28 : Int) else 0) +
          (if s.bodyWords < 80 then 24 else 0) +
          (if s.uniqueWordRatio < (45 : Rat) / 100 then 14 else 0) +
          (if s.headingCount < 2 then 10 else 0) +
          (if s.bulletCount < 3 then 8 else 0) +
          min 28 (9 * (s.templateMarkerHits : Int)) +
          (if s.genericSummary then 20 else 0))) := by
  simp only [scoreQuality]
  split_ifs <;> omega

/-- Witness for C3 on concrete inputs: a thin submission from a low-trust
account hard-rejects via the thin/templated path, and a clean submission
passes. -/
theorem evaluateQuality_decision_spec_witness :
    (evaluateQuality
        { bodyChars := 150, bodyWords := 40, uniqueWordRatio := 1,
          headingCount := 0, bulletCount := 0, templateMarkerHits := 0,
          genericSummary := false, structuralFingerprint := "" }
        .low 0).decision = .reject ∧
    (evaluateQuality
        { bodyChars := 3000, bodyWords := 500, uniqueWordRatio := 1,
          headingCount := 4, bulletCount := 6, templateMarkerHits := 0,
          genericSummary := false, structuralFingerprint := "" }
        .trusted 0).decision = .pass :=
  ⟨(evaluateQuality_decision_spec
      { bodyChars := 150, bodyWords := 40, uniqueWordRatio := 1,
        headingCount := 0, bulletCount := 0, templateMarkerHits := 0,
        genericSummary := false, structuralFingerprint := "" }
      .low 0).1.mpr (by simp [specHardReject, specWordFloor]),
   (evaluateQuality_decision_spec
      { bodyChars := 3000, bodyWords := 500, uniqueWordRatio := 1,
        headingCount := 4, bulletCount := 6, templateMarkerHits := 0,
        genericSummary := false, structuralFingerprint := "" }
      .trusted 0).2.2.2.2.mpr
     ⟨by simp [specHardReject, specWordFloor, specCharFloor, specDupCeil],
      by norm_num [scoreQuality, specQuarantineCeil]⟩⟩

/-! ## Structural fingerprinting (from `src/convex/comments.ts`)

The JavaScript string primitives are modelled for the ASCII fragment:
`jsWhitespace` is the JS `\s` class restricted to its ASCII members,
`Char.toLower` models `toLowerCase` on ASCII letters, and line starts
are positions after a newline character. -/

def jsWhitespace (c : Char) : Bool :=
  c = ' ' || c = '\t' || c = '\n' || c = '\r' || c = Char.ofNat 11 || c = Char.ofNat 12

/-- JS `String.prototype.trim` on a character list. -/
def trimChars (cs : List Char) : List Char :=
  ((cs.dropWhile jsWhitespace).reverse.dropWhile jsWhitespace).reverse

/-- JS `split('\n')` on a character list. -/
def splitOnNl : List Char → List (List Char)
  | [] => [[]]
  | c :: rest =>
    if c = '\n' then [] :: splitOnNl rest
    else
      match splitOnNl rest with
      | [] => [[c]]
      | l :: ls => (c :: l) :: ls

/-- First character class of the word regex `[a-z0-9][a-z0-9'-]*`. -/
def isWordStart (c : Char) : Bool :=
  ('a' ≤ c && c ≤ 'z') || ('0' ≤ c && c ≤ '9')

/-- Continuation class of the word regex: `[a-z0-9'-]`. -/
def isWordCont (c : Char) : Bool :=
  isWordStart c || c = Char.ofNat 39 || c = '-'

/-- Global scan of `/[a-z0-9][a-z0-9'-]*/g`: the accumulator holds the
reversed characters of the token currently being matched. -/
def tokenizeAux : List Char → List Char → List (List Char)
  | [], acc => if acc.isEmpty then [] else [acc.reverse]
  | c :: rest, acc =>
    if acc.isEmpty then
      if isWordStart c then tokenizeAux rest [c] else tokenizeAux rest []
    else
      if isWordCont c then tokenizeAux rest (c :: acc)
      else acc.reverse :: (if isWordStart c then tokenizeAux rest [c] else tokenizeAux rest [])

/-- `tokenizeWords` of `comments.ts`: lowercase, match the word regex
globally, keep words longer than one character. -/
def tokenizeWords (cs : List Char) : List (List Char) :=
  (tokenizeAux (cs.map Char.toLower) []).filter (fun word => 1 < word.length)

/-- `wordBucket` of `comments.ts`. -/
def wordBucket (cs : List Char) : List Char :=
  let words := (tokenizeWords cs).length
  if words ≤ 2 then ['s'] else if words ≤ 6 then ['m'] else ['l']

/-- The lazy part `[\s\S]*?\n---\s*\n?` of the frontmatter regex: find
the first later `\n---`, then let `\s*` consume greedily with the
optional `\n?` matching empty. Returns the remainder after the match. -/
def fmInner : List Char → Option (List Char)
  | '\n' :: '-' :: '-' :: '-' :: u => some (u.dropWhile jsWhitespace)
  | _ :: rest => fmInner rest
  | [] => none

/-- Indices of newline characters in a whitespace run, largest first:
the backtracking order of the greedy `\s*` before the mandatory `\n`. -/
def newlinePositionsDesc (w : List Char) : List Nat :=
  ((List.range w.length).filter (fun i => w.get? i = some '\n')).reverse

/-- Try to match `---\s*\n[\s\S]*?\n---\s*\n?` at this position (which
the caller guarantees is a line start). Returns the remainder of the
string after the match. -/
def fmMatchAt (cs : List Char) : Option (List Char) :=
  match cs with
  | '-' :: '-' :: '-' :: rest =>
    let w := rest.takeWhile jsWhitespace
    (newlinePositionsDesc w).findSome? (fun p => fmInner (rest.drop (p + 1)))
  | _ => none

/-- Scan for the leftmost line start where the frontmatter pattern
matches, as `String.prototype.replace` with a non-global `m`-flagged
regex does; everything before the match is kept, the match is dropped. -/
def fmStripGo : Bool → List Char → List Char
  | _, [] => []
  | atStart, c :: rest =>
    match (if atStart then fmMatchAt (c :: rest) else none) with
    | some remainder => remainder
    | none => c :: fmStripGo (c = '\n') rest

/-- `stripFrontmatter` of `comments.ts`:
`raw.replace(/^---\s*\n[\s\S]*?\n---\s*\n?/m, '')`. -/
def stripFrontmatter (cs : List Char) : List Char :=
  fmStripGo true cs

/-- `/^[-*]\s+/.test(line)`. -/
def bulletTest (line : List Char) : Bool :=
  match line with
  | c1 :: c2 :: _ => (c1 = '-' || c1 = '*') && jsWhitespace c2
  | _ => false

/-- `line.replace(/^[-*]\s+/, '')` when the test succeeded: drop the
marker and the greedy whitespace run. -/
def stripBulletPrefix (line : List Char) : List Char :=
  (line.drop 1).dropWhile jsWhitespace

/-- `/^\d+\.\s+/.test(line)`. -/
def numberedTest (line : List Char) : Bool :=
  let ds := line.takeWhile Char.isDigit
  !ds.isEmpty &&
    match line.drop ds.length with
    | '.' :: c :: _ => jsWhitespace c
    | _ => false

/-- `line.replace(/^\d+\.\s+/, '')` when the test succeeded. -/
def stripNumberedPrefix (line : List Char) : List Char :=
  let ds := line.takeWhile Char.isDigit
  (line.drop (ds.length + 1)).dropWhile jsWhitespace

/-- The per-line classifier inside `toStructuralFingerprint` (the body
of the `lines.map` arrow function). -/
def classifyLine (line : List Char) : List Char :=
  if line.take 4 = ['#', '#', '#', ' '] then 'h' :: '3' :: ':' :: wordBucket (line.drop 4)
  else if line.take 3 = ['#', '#', ' '] then 'h' :: '2' :: ':' :: wordBucket (line.drop 3)
  else if line.take 2 = ['#', ' '] then 'h' :: '1' :: ':' :: wordBucket (line.drop 2)
  else if bulletTest line then 'b' :: ':' :: wordBucket (stripBulletPrefix line)
  else if numberedTest line then 'n' :: ':' :: wordBucket (stripNumberedPrefix line)
  else 'p' :: ':' :: wordBucket line

/-- The first 80 non-blank trimmed lines of the stripped body: the
`lines` value inside `toStructuralFingerprint`. -/
def fingerprintLines (markdown : String) : List (List Char) :=
  ((((splitOnNl (stripFrontmatter markdown.data)).map trimChars).filter
      (fun line => !line.isEmpty)).take 80)

/-- `toStructuralFingerprint` of `comments.ts`. -/
def toStructuralFingerprint (markdown : String) : String :=
  String.mk (List.intercalate ['|'] ((fingerprintLines markdown).map classifyLine))

/-- Every word bucket is one of `s`, `m`, `l`. -/
theorem wordBucket_mem (cs : List Char) :
    wordBucket cs ∈ [['s'], ['m'], ['l']] := by
  simp only [wordBucket]
  split_ifs <;> simp

/-- C8: the structural fingerprint takes the first 80 non-blank trimmed
lines of the metadata-stripped document, classifies each by leading
syntax with a word-count bucket (s when at most 2 words, m when at most
6, l when more), emits one kind:bucket token per line joined by the bar
delimiter, and is deterministic in its input. -/
theorem toStructuralFingerprint_spec (md md' : String) (h : md = md') :
    toStructuralFingerprint md = toStructuralFingerprint md' ∧
    toStructuralFingerprint md =
      String.mk (List.intercalate ['|'] ((fingerprintLines md).map classifyLine)) ∧
    (fingerprintLines md).length ≤ 80 ∧
    (∀ line ∈ fingerprintLines md, ∃ kind bucket,
      kind ∈ [['h', '1'], ['h', '2'], ['h', '3'], ['b'], ['n'], ['p']] ∧
      bucket ∈ [['s'], ['m'], ['l']] ∧
      classifyLine line = kind ++ ':' :: bucket) ∧
    (∀ cs : List Char,
      (wordBucket cs = ['s'] ↔ (tokenizeWords cs).length ≤ 2) ∧
      (wordBucket cs = ['m'] ↔
        (2 < (tokenizeWords cs).length ∧ (tokenizeWords cs).length ≤ 6)) ∧
      (wordBucket cs = ['l'] ↔ 6 < (tokenizeWords cs).length)) := by
  subst h
  refine ⟨rfl, rfl, ?_, ?_, ?_⟩
  · simp only [fingerprintLines, List.length_take]
    omega
  · intro line _
    unfold classifyLine
    split_ifs
    · exact ⟨['h', '3'], wordBucket (line.drop 4), by simp, wordBucket_mem _, rfl⟩
    · exact ⟨['h', '2'], wordBucket (line.drop 3), by simp, wordBucket_mem _, rfl⟩
    · exact ⟨['h', '1'], wordBucket (line.drop 2), by simp, wordBucket_mem _, rfl⟩
    · exact ⟨['b'], wordBucket (stripBulletPrefix line), by simp, wordBucket_mem _, rfl⟩
    · exact ⟨['n'], wordBucket (stripNumberedPrefix line), by simp, wordBucket_mem _, rfl⟩
    · exact ⟨['p'], wordBucket line, by simp, wordBucket_mem _, rfl⟩
  · intro cs
    have hsm : (['s'] : List Char) ≠ ['m'] := by decide
    have hsl : (['s'] : List Char) ≠ ['l'] := by decide
    have hml : (['m'] : List Char) ≠ ['l'] := by decide
    simp only [wordBucket]
    split_ifs with h1 h2 <;>
      refine ⟨?_, ?_, ?_⟩ <;>
      simp_all <;>
      omega

/-- Witness for C8: a concrete document with frontmatter, headings, a
bullet, a numbered item and a paragraph evaluates to the expected token
string, and the fingerprint is reproducible. -/
theorem toStructuralFingerprint_spec_witness :
    toStructuralFingerprint
        "---\nname: demo\n---\n# Title\n- one two\n1. alpha beta gamma delta epsilon zeta eta\nShort line\n\n## Another Heading Here\n" =
      toStructuralFingerprint
        "---\nname: demo\n---\n# Title\n- one two\n1. alpha beta gamma delta epsilon zeta eta\nShort line\n\n## Another Heading Here\n" ∧
    toStructuralFingerprint
        "---\nname: demo\n---\n# Title\n- one two\n1. alpha beta gamma delta epsilon zeta eta\nShort line\n\n## Another Heading Here\n" =
      "h1:s|b:s|n:l|p:s|h2:m" :=
  ⟨(toStructuralFingerprint_spec _ _ rfl).1, by decide⟩

/-! ## Comment moderation engine (from `src/convex/comments.handlers.ts`)

The Convex database is modelled as association lists from document ids
(`Nat`) to documents, in insertion order; index queries become ordered
filters over those lists, matching Convex's creation-time index order.
The authenticated actor of `requireUser` is passed as an explicit
`userId`/`Role` argument, and `assertModerator` / `assertAdmin` (from
`convex/lib/access.ts`, which is not part of the sources) are modelled
from the spec's authorization interface: role gates that fail with a
permission error. `insertStatEvent` (from `convex/skillStatEvents.ts`,
also absent) is modelled from the spec's stat aggregator interface:
appending a single `(skillId, kind)` event. -/

inductive CommentStatus
  | active
  | hidden
  | removed
deriving Repr, DecidableEq

inductive StatKind
  | comment
  | uncomment
deriving Repr, DecidableEq

inductive Role
  | user
  | moderator
  | admin
deriving Repr, DecidableEq

structure UserDoc where
  deletedAt : Option Nat := none
  deactivatedAt : Option Nat := none
deriving Repr, DecidableEq

structure Comment where
  skillId : Nat
  userId : Nat
  body : String
  createdAt : Nat
  softDeletedAt : Option Nat := none
  deletedBy : Option Nat := none
  moderationStatus : Option CommentStatus := none
  moderationReason : Option String := none
  moderationNotes : Option String := none
  reportCount : Option Nat := none
  lastReportedAt : Option Nat := none
  hiddenAt : Option Nat := none
  lastReviewedAt : Option Nat := none
deriving Repr, DecidableEq

structure CommentReport where
  commentId : Nat
  skillId : Nat
  userId : Nat
  reason : String
  createdAt : Nat
deriving Repr, DecidableEq

structure StatEvent where
  skillId : Nat
  kind : StatKind
deriving Repr, DecidableEq

structure AuditLog where
  actorUserId : Nat
  action : String
  targetType : String
  targetId : Nat
  metaSkillId : Nat
  metaReportCount : Option Nat := none
  createdAt : Nat
deriving Repr, DecidableEq

structure DB where
  comments : List (Nat × Comment) := []
  commentReports : List (Nat × CommentReport) := []
  users : List (Nat × UserDoc) := []
  auditLogs : List AuditLog := []
  statEvents : List StatEvent := []
  nextId : Nat := 0
deriving Repr, DecidableEq

def MAX_ACTIVE_REPORTS_PER_USER : Nat := 20

def AUTO_HIDE_REPORT_THRESHOLD : Nat := 3

def dbGetComment (db : DB) (id : Nat) : Option Comment :=
  (db.comments.find? (fun e => e.1 == id)).map (fun e => e.2)

def dbGetUser (db : DB) (id : Nat) : Option UserDoc :=
  (db.users.find? (fun e => e.1 == id)).map (fun e => e.2)

/-- `getCommentStatus` of `comments.handlers.ts`. -/
def getCommentStatus (comment : Comment) : CommentStatus :=
  match comment.moderationStatus with
  | some status => status
  | none => if comment.softDeletedAt.isSome then .hidden else .active

/-- `isCommentVisible` of `comments.handlers.ts`. -/
def isCommentVisible (comment : Comment) : Bool :=
  comment.softDeletedAt.isNone && decide (getCommentStatus comment = .active)

/-- The `by_user` index query over `commentReports`, in creation order. -/
def reportsByUser (db : DB) (uid : Nat) : List CommentReport :=
  (db.commentReports.filter (fun e => e.2.userId == uid)).map (fun e => e.2)

/-- The loop body of `countActiveReportsForUser`: walk the reporter's
reports, count those whose target comment is visible and whose comment
author exists and is neither deleted nor deactivated, stopping once the
count reaches the cap. -/
def countActiveAux (db : DB) : List CommentReport → Nat → Nat
  | [], count => count
  | report :: rest, count =>
    match dbGetComment db report.commentId with
    | none => countActiveAux db rest count
    | some comment =>
      if !(isCommentVisible comment) then countActiveAux db rest count
      else
        match dbGetUser db comment.userId with
        | none => countActiveAux db rest count
        | some owner =>
          if owner.deletedAt.isSome || owner.deactivatedAt.isSome then
            countActiveAux db rest count
          else
            let count' := count + 1
            if MAX_ACTIVE_REPORTS_PER_USER ≤ count' then count'
            else countActiveAux db rest count'

/-- `countActiveReportsForUser` of `comments.handlers.ts`. -/
def countActiveReportsForUser (db : DB) (userId : Nat) : Nat :=
  countActiveAux db (reportsByUser db userId) 0

/-- The `.withIndex('by_comment_user', …).unique()` lookup: at most one
matching report, `Error` if the index holds several. -/
def uniqueReportByCommentUser (db : DB) (cid uid : Nat) :
    Except String (Option CommentReport) :=
  match db.commentReports.filter (fun e => e.2.commentId == cid && e.2.userId == uid) with
  | [] => .ok none
  | [e] => .ok (some e.2)
  | _ => .error "unique() returned more than one result"

def insertCommentReport (db : DB) (r : CommentReport) : DB :=
  { db with commentReports := db.commentReports ++ [(db.nextId, r)], nextId := db.nextId + 1 }

def patchCommentDoc (db : DB) (cid : Nat) (c : Comment) : DB :=
  { db with comments := db.comments.map (fun e => if e.1 == cid then (e.1, c) else e) }

/-- Modelled from the spec: the stat aggregator `emit(skillId, kind)` of
`convex/skillStatEvents.ts` (not among the sources) appends one stat
event. -/
def insertStatEvent (db : DB) (ev : StatEvent) : DB :=
  { db with statEvents := db.statEvents ++ [ev] }

def insertAuditLog (db : DB) (a : AuditLog) : DB :=
  { db with auditLogs := db.auditLogs ++ [a] }

/-- Modelled from the spec: the `assertModerator` role gate of
`convex/lib/access.ts` (not among the sources) accepts moderators and
admins. -/
def assertModeratorOk (r : Role) : Bool :=
  r == .moderator || r == .admin

structure ReportResult where
  reported : Bool
  alreadyReported : Bool
deriving Repr, DecidableEq

structure HardDeleteResult where
  deleted : Bool
deriving Repr, DecidableEq

def jsTrim (s : String) : String :=
  String.mk (trimChars s.data)

/-- `reportHandler` of `comments.handlers.ts`. The returned database is
the state at the point of return or throw. -/
def reportHandler (db : DB) (userId : Nat) (commentId : Nat)
    (reasonArg : String) (now : Nat) : DB × Except String ReportResult :=
  match dbGetComment db commentId with
  | none => (db, .error "Comment not found")
  | some comment =>
    if getCommentStatus comment = .removed then (db, .error "Comment not found")
    else if !(isCommentVisible comment) then (db, .error "Comment is already hidden.")
    else
      let reason := jsTrim reasonArg
      if reason = "" then (db, .error "Report reason required.")
      else
        match uniqueReportByCommentUser db commentId userId with
        | .error e => (db, .error e)
        | .ok (some _) => (db, .ok { reported := false, alreadyReported := true })
        | .ok none =>
          let activeReports := countActiveReportsForUser db userId
          if MAX_ACTIVE_REPORTS_PER_USER ≤ activeReports then
            (db, .error "Report limit reached. Please wait for moderation before reporting more.")
          else
            let db1 := insertCommentReport db
              { commentId := commentId, skillId := comment.skillId, userId := userId,
                reason := String.mk (reason.data.take 500), createdAt := now }
            let nextReportCount := comment.reportCount.getD 0 + 1
            let shouldAutoHide :=
              decide (AUTO_HIDE_REPORT_THRESHOLD < nextReportCount) && isCommentVisible comment
            let updated :=
              if shouldAutoHide then
                { comment with
                  reportCount := some nextReportCount
                  lastReportedAt := some now
                  softDeletedAt := some now
                  moderationStatus := some .hidden
                  moderationReason := some "auto.reports"
                  moderationNotes := some "Auto-hidden after 4 unique reports."
                  hiddenAt := some now
                  lastReviewedAt := some now
                  deletedBy := none }
              else
                { comment with
                  reportCount := some nextReportCount
                  lastReportedAt := some now }
            let db2 := patchCommentDoc db1 commentId updated
            let db3 :=
              if shouldAutoHide then
                insertStatEvent db2 { skillId := comment.skillId, kind := .uncomment }
              else db2
            let db4 :=
              if shouldAutoHide then
                insertAuditLog db3
                  { actorUserId := userId, action := "comment.auto_hide",
                    targetType := "comment", targetId := commentId,
                    metaSkillId := comment.skillId,
                    metaReportCount := some nextReportCount, createdAt := now }
              else db3
            (db4, .ok { reported := true, alreadyReported := false })

/-- `removeHandler` of `comments.handlers.ts`. -/
def removeHandler (db : DB) (userId : Nat) (role : Role) (commentId : Nat)
    (now : Nat) : DB × Except String Unit :=
  match dbGetComment db commentId with
  | none => (db, .error "Comment not found")
  | some comment =>
    if !(isCommentVisible comment) then (db, .ok ())
    else
      let isOwner := comment.userId == userId
      if !isOwner && !(assertModeratorOk role) then (db, .error "Moderator role required")
      else
        let db1 := patchCommentDoc db commentId
          { comment with
            softDeletedAt := some now
            deletedBy := some userId
            moderationStatus := some .removed
            moderationReason :=
              some (if isOwner then "manual.user_delete" else "manual.moderator_delete")
            moderationNotes := none
            lastReviewedAt := some now }
        let db2 := insertStatEvent db1 { skillId := comment.skillId, kind := .uncomment }
        let db3 := insertAuditLog db2
          { actorUserId := userId, action := "comment.delete", targetType := "comment",
            targetId := commentId, metaSkillId := comment.skillId, createdAt := now }
        (db3, .ok ())

/-- `setSoftDeletedHandler` of `comments.handlers.ts`. -/
def setSoftDeletedHandler (db : DB) (userId : Nat) (role : Role)
    (commentId : Nat) (deleted : Bool) (now : Nat) : DB × Except String Unit :=
  if !(assertModeratorOk role) then (db, .error "Moderator role required")
  else
    match dbGetComment db commentId with
    | none => (db, .error "Comment not found")
    | some comment =>
      let beforeVisible := isCommentVisible comment
      let patched :=
        if deleted then
          { comment with
            softDeletedAt := some now
            deletedBy := some userId
            moderationStatus := some .hidden
            moderationReason := some "manual.moderation"
            moderationNotes := some "Hidden by moderator."
            hiddenAt := some now
            lastReviewedAt := some now }
        else
          { comment with
            softDeletedAt := none
            deletedBy := none
            moderationStatus := some .active
            moderationReason := none
            moderationNotes := none
            hiddenAt := none
            lastReviewedAt := some now }
      let afterVisible := !deleted
      let db1 := patchCommentDoc db commentId patched
      let db2 :=
        if beforeVisible && !afterVisible then
          insertStatEvent db1 { skillId := comment.skillId, kind := .uncomment }
        else if !beforeVisible && afterVisible then
          insertStatEvent db1 { skillId := comment.skillId, kind := .comment }
        else db1
      let db3 := insertAuditLog db2
        { actorUserId := userId,
          action := if deleted then "comment.hide" else "comment.restore",
          targetType := "comment", targetId := commentId,
          metaSkillId := comment.skillId, createdAt := now }
      (db3, .ok ())

/-- `hardDeleteHandler` of `comments.handlers.ts`. -/
def hardDeleteHandler (db : DB) (userId : Nat) (role : Role) (commentId : Nat)
    (now : Nat) : DB × Except String HardDeleteResult :=
  if !(role == .admin) then (db, .error "Admin role required")
  else
    match dbGetComment db commentId with
    | none => (db, .ok { deleted := false })
    | some comment =>
      let beforeVisible := isCommentVisible comment
      let reports := db.commentReports.filter (fun e => e.2.commentId == commentId)
      let db1 :=
        { db with commentReports :=
            db.commentReports.filter (fun e => !(e.2.commentId == commentId)) }
      let db2 := { db1 with comments := db1.comments.filter (fun e => !(e.1 == commentId)) }
      let db3 :=
        if beforeVisible then
          insertStatEvent db2 { skillId := comment.skillId, kind := .uncomment }
        else db2
      let db4 := insertAuditLog db3
        { actorUserId := userId, action := "comment.hard_delete", targetType := "comment",
          targetId := commentId, metaSkillId := comment.skillId,
          metaReportCount := some reports.length, createdAt := now }
      (db4, .ok { deleted := true })

/-! ## Shared handler lemmas and concrete states -/

instance {ε α : Type} [DecidableEq ε] [DecidableEq α] : DecidableEq (Except ε α) := fun x y =>
  match x, y with
  | .ok a, .ok b =>
    if h : a = b then isTrue (by rw [h]) else isFalse (fun he => h (by cases he; rfl))
  | .error a, .error b =>
    if h : a = b then isTrue (by rw [h]) else isFalse (fun he => h (by cases he; rfl))
  | .ok _, .error _ => isFalse (fun he => Except.noConfusion he)
  | .error _, .ok _ => isFalse (fun he => Except.noConfusion he)

theorem getCommentStatus_of_visible {c : Comment} (h : isCommentVisible c = true) :
    getCommentStatus c = .active := by
  unfold isCommentVisible at h
  simp only [Bool.and_eq_true, decide_eq_true_eq] at h
  exact h.2

/-- A report call that finds an existing `(commentId, reporterId)` report
returns the already-reported result without touching the database. -/
theorem reportHandler_already (db : DB) (uid cid : Nat) (c : Comment)
    (r : CommentReport) (reason : String) (now : Nat)
    (hc : dbGetComment db cid = some c) (hvis : isCommentVisible c = true)
    (hre : jsTrim reason ≠ "")
    (hex : uniqueReportByCommentUser db cid uid = .ok (some r)) :
    reportHandler db uid cid reason now =
      (db, .ok { reported := false, alreadyReported := true }) := by
  have hst := getCommentStatus_of_visible hvis
  simp [reportHandler, hc, hst, hvis, hre, hex]

/-- A report call against a hidden (non-visible, non-removed) comment
fails with the already-hidden error and leaves the database unchanged. -/
theorem reportHandler_hidden (db : DB) (uid cid : Nat) (c : Comment)
    (reason : String) (now : Nat)
    (hc : dbGetComment db cid = some c)
    (hrm : getCommentStatus c ≠ .removed)
    (hvis : isCommentVisible c = false) :
    reportHandler db uid cid reason now = (db, .error "Comment is already hidden.") := by
  simp [reportHandler, hc, hrm, hvis]

def activeComment : Comment :=
  { skillId := 1, userId := 2, body := "b", createdAt := 0,
    moderationStatus := some .active, reportCount := some 0 }

def activeDb : DB :=
  { comments := [(0, activeComment)], users := [(2, {})], nextId := 1 }

def hiddenComment : Comment :=
  { skillId := 1, userId := 2, body := "b", createdAt := 0,
    softDeletedAt := some 3, moderationStatus := some .hidden }

def hiddenDb : DB :=
  { comments := [(0, hiddenComment)], users := [(2, {})], nextId := 1 }

/-! ## C10: hard delete of a missing comment -/

/-- C10: a hard-delete call by an admin whose commentId does not resolve
returns deleted false without an error and performs no write. -/
theorem hardDelete_missing_comment_spec (db : DB) (userId cid now : Nat)
    (h : dbGetComment db cid = none) :
    hardDeleteHandler db userId .admin cid now = (db, .ok { deleted := false }) := by
  simp [hardDeleteHandler, h]

/-- Witness for C10 at the empty database. -/
theorem hardDelete_missing_comment_witness :
    hardDeleteHandler {} 1 .admin 42 9 = ({}, .ok { deleted := false }) :=
  hardDelete_missing_comment_spec {} 1 42 9 (by decide)

/-! ## C6: empty report reason -/

/-- C6 counterexample: a report call whose reason trims to empty does not
fail with the validation error when the target comment is missing or
hidden: the comment fetch and its status checks run first, so their
errors surface instead. -/
theorem report_empty_reason_counterexample :
    (reportHandler ({} : DB) 1 5 "   " 7).2 = .error "Comment not found" ∧
    (reportHandler hiddenDb 1 0 "   " 7).2 = .error "Comment is already hidden." ∧
    (reportHandler ({} : DB) 1 5 "   " 7).2 ≠ .error "Report reason required." ∧
    (reportHandler hiddenDb 1 0 "   " 7).2 ≠ .error "Report reason required." := by
  decide

/-- C6 amended: when the target comment exists and is visible, a report
call whose reason trims to empty fails with the validation error and
performs no write, whatever the reports table holds (so before the
duplicate lookup and the cap count); when the comment is missing, the
not-found error takes precedence. -/
theorem report_empty_reason_spec :
    (∀ (db : DB) (uid cid : Nat) (c : Comment) (reason : String) (now : Nat),
      dbGetComment db cid = some c → isCommentVisible c = true → jsTrim reason = "" →
      reportHandler db uid cid reason now = (db, .error "Report reason required.")) ∧
    (∀ (db : DB) (uid cid : Nat) (reason : String) (now : Nat),
      dbGetComment db cid = none →
      reportHandler db uid cid reason now = (db, .error "Comment not found")) := by
  constructor
  · intro db uid cid c reason now hc hvis hre
    have hst := getCommentStatus_of_visible hvis
    simp [reportHandler, hc, hst, hvis, hre]
  · intro db uid cid reason now hc
    simp [reportHandler, hc]

/-- Witness for C6 (amended) on a visible comment and a blank reason. -/
theorem report_empty_reason_spec_witness :
    reportHandler activeDb 9 0 " " 7 = (activeDb, .error "Report reason required.") :=
  report_empty_reason_spec.1 activeDb 9 0 activeComment " " 7 (by decide) (by decide)
    (by decide)

/-! ## C9: duplicate lookup precedes the rate cap -/

/-- C9: a reporter with an existing report for the target comment gets
the already-reported result with no write, with no hypothesis on the
reporter's active-report count: the duplicate lookup runs before the
rate-cap check, so a repeated report never raises the rate-limit
error. -/
theorem report_duplicate_before_cap (db : DB) (uid cid : Nat) (c : Comment)
    (r : CommentReport) (reason : String) (now : Nat)
    (hc : dbGetComment db cid = some c) (hvis : isCommentVisible c = true)
    (hre : jsTrim reason ≠ "")
    (hex : uniqueReportByCommentUser db cid uid = .ok (some r)) :
    reportHandler db uid cid reason now =
      (db, .ok { reported := false, alreadyReported := true }) :=
  reportHandler_already db uid cid c r reason now hc hvis hre hex

def capComments : List (Nat × Comment) :=
  (List.range 20).map (fun i => (i, activeComment))

def capReports : List (Nat × CommentReport) :=
  (List.range 20).map
    (fun i => (200 + i, { commentId := i, skillId := 1, userId := 50, reason := "r", createdAt := 0 }))

/-- A database in which reporter 50 already has 20 active reports and
comment 100 is a further visible report target. -/
def capDb : DB :=
  { comments := capComments ++ [(100, activeComment)],
    commentReports := capReports, users := [(2, {})], nextId := 300 }

/-- `capDb` plus an existing report by reporter 50 on comment 100. -/
def dupCapDb : DB :=
  { capDb with
    commentReports :=
      capReports ++ [(250, { commentId := 100, skillId := 1, userId := 50, reason := "r", createdAt := 0 })] }

/-- Witness for C9: the repeated report succeeds as already-reported even
though the reporter's active-report count is at the cap. -/
theorem report_duplicate_before_cap_witness :
    MAX_ACTIVE_REPORTS_PER_USER ≤ countActiveReportsForUser dupCapDb 50 ∧
    reportHandler dupCapDb 50 100 "spam" 9 =
      (dupCapDb, .ok { reported := false, alreadyReported := true }) :=
  ⟨by decide,
   report_duplicate_before_cap dupCapDb 50 100 activeComment
     { commentId := 100, skillId := 1, userId := 50, reason := "r", createdAt := 0 }
     "spam" 9 (by decide) (by decide) (by decide) (by decide)⟩

/-! ## C2: repeated identical reports -/

/-- `hiddenDb` plus an existing report by reporter 50 on the hidden
comment 0. -/
def hiddenDupDb : DB :=
  { comments := [(0, hiddenComment)],
    commentReports := [(1, { commentId := 0, skillId := 1, userId := 50, reason := "r", createdAt := 0 })],
    users := [(2, {})], nextId := 2 }

/-- C2 counterexample: reporter 50 already has a report for comment 0,
yet the repeated report call does not return the already-reported result
because the comment is now hidden: it fails with the already-hidden
error instead. -/
theorem report_repeat_counterexample :
    uniqueReportByCommentUser hiddenDupDb 0 50 =
      .ok (some { commentId := 0, skillId := 1, userId := 50, reason := "r", createdAt := 0 }) ∧
    (reportHandler hiddenDupDb 50 0 "again" 9).2 ≠
      .ok { reported := false, alreadyReported := true } ∧
    (reportHandler hiddenDupDb 50 0 "again" 9).2 = .error "Comment is already hidden." := by
  decide

/-- C2 amended: once a report for the pair exists, every later report
call by that reporter — with a reason that trims nonempty, while the
comment is still visible — returns the already-reported result with zero
writes, however many times it is repeated; once the comment is no longer
visible such calls fail instead (see the counterexample). -/
theorem report_repeat_idempotent (db : DB) (uid cid : Nat) (c : Comment)
    (r : CommentReport) (reason : String) (now : Nat)
    (hc : dbGetComment db cid = some c) (hvis : isCommentVisible c = true)
    (hre : jsTrim reason ≠ "")
    (hex : uniqueReportByCommentUser db cid uid = .ok (some r)) (n : Nat) :
    (fun d => (reportHandler d uid cid reason now).1)^[n] db = db ∧
    (reportHandler ((fun d => (reportHandler d uid cid reason now).1)^[n] db)
        uid cid reason now).2 =
      .ok { reported := false, alreadyReported := true } := by
  have h1 := reportHandler_already db uid cid c r reason now hc hvis hre hex
  have hiter : ∀ m, (fun d => (reportHandler d uid cid reason now).1)^[m] db = db := by
    intro m
    induction m with
    | zero => simp
    | succ k ih =>
      rw [Function.iterate_succ_apply]
      simpa [h1] using ih
  exact ⟨hiter n, by rw [hiter n]; simp [h1]⟩

def dupDb : DB :=
  { comments := [(0, activeComment)],
    commentReports := [(1, { commentId := 0, skillId := 1, userId := 50, reason := "r", createdAt := 0 })],
    users := [(2, {})], nextId := 2 }

/-- Witness for C2 (amended) with five repetitions. -/
theorem report_repeat_idempotent_witness :
    (fun d => (reportHandler d 50 0 "again" 9).1)^[5] dupDb = dupDb ∧
    (reportHandler ((fun d => (reportHandler d 50 0 "again" 9).1)^[5] dupDb)
        50 0 "again" 9).2 =
      .ok { reported := false, alreadyReported := true } :=
  report_repeat_idempotent dupDb 50 0 activeComment
    { commentId := 0, skillId := 1, userId := 50, reason := "r", createdAt := 0 }
    "again" 9 (by decide) (by decide) (by decide) (by decide) 5

/-! ## C5: no-op moderation requests -/

/-- C5 counterexample: a moderator restore of an already-active comment
and a moderator hide of an already-hidden comment each patch the comment
and append an audit entry, so they are not write-free; only stat events
are skipped. -/
theorem moderation_noop_counterexample :
    (setSoftDeletedHandler activeDb 99 .moderator 0 false 8).2 = .ok () ∧
    (setSoftDeletedHandler activeDb 99 .moderator 0 false 8).1.auditLogs.length = 1 ∧
    (setSoftDeletedHandler activeDb 99 .moderator 0 false 8).1 ≠ activeDb ∧
    (setSoftDeletedHandler hiddenDb 99 .moderator 0 true 8).1.auditLogs.length = 1 ∧
    (setSoftDeletedHandler hiddenDb 99 .moderator 0 true 8).1 ≠ hiddenDb := by
  decide

/-- C5 amended: deleting a comment that is no longer visible performs
zero writes and emits nothing; a redundant moderator restore (of an
already-active comment) or hide (of an already-hidden comment) emits
zero stat events but still patches the comment and appends exactly one
audit entry (comment.restore / comment.hide). -/
theorem moderation_noop_requests_spec :
    (∀ (db : DB) (uid : Nat) (role : Role) (cid now : Nat) (c : Comment),
      dbGetComment db cid = some c → isCommentVisible c = false →
      removeHandler db uid role cid now = (db, .ok ())) ∧
    (∀ (db : DB) (uid : Nat) (role : Role) (cid now : Nat) (c : Comment),
      assertModeratorOk role = true → dbGetComment db cid = some c →
      isCommentVisible c = true →
      (setSoftDeletedHandler db uid role cid false now).2 = .ok () ∧
      (setSoftDeletedHandler db uid role cid false now).1.statEvents = db.statEvents ∧
      (setSoftDeletedHandler db uid role cid false now).1.auditLogs =
        db.auditLogs ++
          [{ actorUserId := uid, action := "comment.restore", targetType := "comment",
             targetId := cid, metaSkillId := c.skillId, createdAt := now }]) ∧
    (∀ (db : DB) (uid : Nat) (role : Role) (cid now : Nat) (c : Comment),
      assertModeratorOk role = true → dbGetComment db cid = some c →
      isCommentVisible c = false →
      (setSoftDeletedHandler db uid role cid true now).2 = .ok () ∧
      (setSoftDeletedHandler db uid role cid true now).1.statEvents = db.statEvents ∧
      (setSoftDeletedHandler db uid role cid true now).1.auditLogs =
        db.auditLogs ++
          [{ actorUserId := uid, action := "comment.hide", targetType := "comment",
             targetId := cid, metaSkillId := c.skillId, createdAt := now }]) := by
  refine ⟨?_, ?_, ?_⟩
  · intro db uid role cid now c hc hvis
    simp [removeHandler, hc, hvis]
  · intro db uid role cid now c hrole hc hvis
    simp [setSoftDeletedHandler, hrole, hc, hvis, patchCommentDoc, insertAuditLog,
      insertStatEvent]
  · intro db uid role cid now c hrole hc hvis
    simp [setSoftDeletedHandler, hrole, hc, hvis, patchCommentDoc, insertAuditLog,
      insertStatEvent]

/-- Witness for C5 (amended): removing an already-hidden comment is a
pure no-op, and a redundant restore leaves the stat stream untouched
while appending one audit entry. -/
theorem moderation_noop_requests_witness :
    removeHandler hiddenDb 7 .moderator 0 9 = (hiddenDb, .ok ()) ∧
    (setSoftDeletedHandler activeDb 99 .moderator 0 false 8).1.statEvents =
      activeDb.statEvents ∧
    (setSoftDeletedHandler activeDb 99 .moderator 0 false 8).1.auditLogs =
      activeDb.auditLogs ++
        [{ actorUserId := 99, action := "comment.restore", targetType := "comment",
           targetId := 0, metaSkillId := 1, createdAt := 8 }] :=
  ⟨(moderation_noop_requests_spec.1 hiddenDb 7 .moderator 0 9 hiddenComment
      (by decide) (by decide)),
   (moderation_noop_requests_spec.2.1 activeDb 99 .moderator 0 8 activeComment
      (by decide) (by decide) (by decide)).2.1,
   (moderation_noop_requests_spec.2.1 activeDb 99 .moderator 0 8 activeComment
      (by decide) (by decide) (by decide)).2.2⟩

/-! ## C7: the active-report rate cap -/

/-- The claim's notion of an active report, written from the spec: the
target comment still exists and is visible, and the comment's author
exists and is neither deleted nor deactivated. -/
def activeReportCheck (db : DB) (report : CommentReport) : Bool :=
  match dbGetComment db report.commentId with
  | none => false
  | some comment =>
    isCommentVisible comment &&
      match dbGetUser db comment.userId with
      | none => false
      | some owner => owner.deletedAt.isNone && owner.deactivatedAt.isNone

theorem countActiveAux_min (db : DB) :
    ∀ (l : List CommentReport) (count : Nat), count < 20 →
      countActiveAux db l count =
        min 20 (count + (l.filter (activeReportCheck db)).length) := by
  intro l
  induction l with
  | nil =>
    intro count h
    simp only [countActiveAux, List.filter_nil, List.length_nil, Nat.add_zero]
    omega
  | cons r rest ih =>
    intro count h
    cases hcm : dbGetComment db r.commentId with
    | none =>
      have hp : activeReportCheck db r = false := by simp [activeReportCheck, hcm]
      simp only [countActiveAux, hcm, List.filter_cons, hp, Bool.false_eq_true, if_false]
      exact ih count h
    | some comment =>
      cases hv : isCommentVisible comment with
      | false =>
        have hp : activeReportCheck db r = false := by simp [activeReportCheck, hcm, hv]
        simp only [countActiveAux, hcm, hv, Bool.not_false, if_true, List.filter_cons, hp,
          Bool.false_eq_true, if_false]
        exact ih count h
      | true =>
        cases hu : dbGetUser db comment.userId with
        | none =>
          have hp : activeReportCheck db r = false := by
            simp [activeReportCheck, hcm, hv, hu]
          simp only [countActiveAux, hcm, hv, Bool.not_true, Bool.false_eq_true, if_false,
            hu, List.filter_cons, hp]
          exact ih count h
        | some owner =>
          by_cases hd : (owner.deletedAt.isSome || owner.deactivatedAt.isSome) = true
          · have hp : activeReportCheck db r = false := by
              simp only [activeReportCheck, hcm, hv, hu, Bool.true_and]
              simp only [Bool.or_eq_true, Option.isSome_iff_exists] at hd
              rcases hd with ⟨x, hx⟩ | ⟨x, hx⟩ <;> simp [hx]
            simp only [countActiveAux, hcm, hv, Bool.not_true, Bool.false_eq_true, if_false,
              hu, hd, if_true, List.filter_cons, hp]
            exact ih count h
          · have hp : activeReportCheck db r = true := by
              simp only [Bool.or_eq_true, not_or, Bool.not_eq_true, Option.not_isSome,
                Option.isNone_iff_eq_none] at hd
              simp [activeReportCheck, hcm, hv, hu, hd.1, hd.2]
            simp only [countActiveAux, hcm, hv, Bool.not_true, Bool.false_eq_true, if_false,
              hu, hd, List.filter_cons, hp, if_true, List.length_cons,
              MAX_ACTIVE_REPORTS_PER_USER]
            by_cases hc20 : 20 ≤ count + 1
            · simp only [hc20, if_true]
              omega
            · simp only [hc20, if_false]
              rw [ih (count + 1) (by omega)]
              omega

/-- C7: a reporter whose active-report count has reached the cap of 20
is rejected with the rate-limit error and no write is performed;
moreover the count is exactly the number of the reporter's reports whose
target comment is still visible with a live author, capped at 20, so
reports on removed/hidden comments or deactivated authors do not
count. -/
theorem report_rate_cap_spec :
    (∀ (db : DB) (uid cid : Nat) (c : Comment) (reason : String) (now : Nat),
      dbGetComment db cid = some c → isCommentVisible c = true → jsTrim reason ≠ "" →
      uniqueReportByCommentUser db cid uid = .ok none →
      MAX_ACTIVE_REPORTS_PER_USER ≤ countActiveReportsForUser db uid →
      reportHandler db uid cid reason now =
        (db, .error "Report limit reached. Please wait for moderation before reporting more.")) ∧
    (∀ (db : DB) (uid : Nat),
      countActiveReportsForUser db uid =
        min MAX_ACTIVE_REPORTS_PER_USER
          ((reportsByUser db uid).filter (activeReportCheck db)).length) := by
  constructor
  · intro db uid cid c reason now hc hvis hre hex hcap
    have hst := getCommentStatus_of_visible hvis
    simp [reportHandler, hc, hst, hvis, hre, hex, hcap]
  · intro db uid
    have h := countActiveAux_min db (reportsByUser db uid) 0 (by norm_num)
    simpa [countActiveReportsForUser, MAX_ACTIVE_REPORTS_PER_USER] using h

/-- Witness for C7: reporter 50 holds 20 active reports in `capDb`, and
the 21st distinct report attempt is rejected without a write. -/
theorem report_rate_cap_witness :
    countActiveReportsForUser capDb 50 = 20 ∧
    reportHandler capDb 50 100 "looks bad" 9 =
      (capDb, .error "Report limit reached. Please wait for moderation before reporting more.") :=
  ⟨by decide,
   report_rate_cap_spec.1 capDb 50 100 activeComment "looks bad" 9
     (by decide) (by decide) (by decide) (by decide) (by decide)⟩

/-! ## C1: the auto-hide report sequence

A fresh visible comment (document id 0) is reported by a sequence of
distinct reporters. `stateOf done` is the database after the reports by
`done` have been processed; `runReports` replays a reporter list through
`reportHandler`, keeping the returned state (a throw leaves the state
unchanged, matching the transactional rollback of a failed mutation). -/

/-- The comment document inserted by `addHandler`. -/
def initComment (sid aid : Nat) (bodyS : String) (t0 : Nat) : Comment :=
  { skillId := sid, userId := aid, body := bodyS, createdAt := t0,
    softDeletedAt := none, deletedBy := none, moderationStatus := some .active,
    moderationReason := none, moderationNotes := none, reportCount := some 0,
    lastReportedAt := none, hiddenAt := none, lastReviewedAt := none }

def initDB (sid aid : Nat) (bodyS : String) (t0 : Nat) : DB :=
  { comments := [(0, initComment sid aid bodyS t0)], users := [(aid, {})], nextId := 1 }

/-- The reason string stored by `reportHandler` (trimmed, cut at 500). -/
def seqReason (reasonArg : String) : String :=
  String.mk ((jsTrim reasonArg).data.take 500)

def mkRep (sid : Nat) (reasonArg : String) (now : Nat) (r : Nat) : CommentReport :=
  { commentId := 0, skillId := sid, userId := r, reason := seqReason reasonArg,
    createdAt := now }

def mkReports (sid : Nat) (reasonArg : String) (now : Nat) :
    Nat → List Nat → List (Nat × CommentReport)
  | _, [] => []
  | startId, r :: rest =>
    (startId, mkRep sid reasonArg now r) :: mkReports sid reasonArg now (startId + 1) rest

/-- The comment document after `k` unique reports (hidden from the 4th
on). -/
def cAfter (sid aid : Nat) (bodyS : String) (t0 now : Nat) (k : Nat) : Comment :=
  if k = 0 then initComment sid aid bodyS t0
  else if k ≤ 3 then
    { initComment sid aid bodyS t0 with reportCount := some k, lastReportedAt := some now }
  else
    { initComment sid aid bodyS t0 with
      reportCount := some k, lastReportedAt := some now, softDeletedAt := some now,
      moderationStatus := some .hidden, moderationReason := some "auto.reports",
      moderationNotes := some "Auto-hidden after 4 unique reports.", hiddenAt := some now,
      lastReviewedAt := some now, deletedBy := none }

/-- The database after the distinct reporters `done` have reported the
fresh comment. -/
def stateOf (sid aid : Nat) (bodyS : String) (t0 : Nat) (reasonArg : String)
    (now : Nat) (done : List Nat) : DB :=
  { comments := [(0, cAfter sid aid bodyS t0 now done.length)],
    commentReports := mkReports sid reasonArg now 1 done,
    users := [(aid, {})],
    auditLogs :=
      if done.length ≤ 3 then []
      else
        [{ actorUserId := done.getLast?.getD 0, action := "comment.auto_hide",
           targetType := "comment", targetId := 0, metaSkillId := sid,
           metaReportCount := some done.length, createdAt := now }],
    statEvents :=
      if done.length ≤ 3 then [] else [{ skillId := sid, kind := .uncomment }],
    nextId := 1 + done.length }

def runReports (reasonArg : String) (now : Nat) : DB → List Nat → DB
  | db, [] => db
  | db, r :: rest => runReports reasonArg now (reportHandler db r 0 reasonArg now).1 rest

/-- The `i`-th report call of the sequence `rs` against the fresh
comment, together with the state it leaves behind. -/
def reportCallAt (sid aid : Nat) (bodyS : String) (t0 : Nat) (reasonArg : String)
    (now : Nat) (rs : List Nat) (i : Nat) : DB × Except String ReportResult :=
  reportHandler (runReports reasonArg now (initDB sid aid bodyS t0) (rs.take i))
    (rs.getD i 0) 0 reasonArg now

theorem stateOf_nil (sid aid : Nat) (bodyS : String) (t0 : Nat) (reasonArg : String)
    (now : Nat) :
    stateOf sid aid bodyS t0 reasonArg now [] = initDB sid aid bodyS t0 := by
  simp [stateOf, initDB, cAfter, mkReports]

theorem cAfter_reportCount (sid aid : Nat) (bodyS : String) (t0 now k : Nat) :
    (cAfter sid aid bodyS t0 now k).reportCount = some k := by
  by_cases h1 : k = 0
  · subst h1; rfl
  · by_cases h2 : k ≤ 3
    · simp [cAfter, h1, h2]
    · simp [cAfter, h1, h2]

theorem cAfter_skillId (sid aid : Nat) (bodyS : String) (t0 now k : Nat) :
    (cAfter sid aid bodyS t0 now k).skillId = sid := by
  unfold cAfter
  split_ifs <;> rfl

theorem cAfter_visible (sid aid : Nat) (bodyS : String) (t0 now k : Nat) (hk : k ≤ 3) :
    isCommentVisible (cAfter sid aid bodyS t0 now k) = true := by
  by_cases h1 : k = 0
  · subst h1; rfl
  · by_cases h2 : k ≤ 3
    · simp [cAfter, h1, h2, isCommentVisible, getCommentStatus, initComment]
    · exact absurd hk h2

theorem mkReports_filter_not_mem (sid : Nat) (reasonArg : String) (now r : Nat) :
    ∀ (rest : List Nat), r ∉ rest → ∀ (s : Nat),
      (mkReports sid reasonArg now s rest).filter
          (fun e => e.2.commentId == 0 && e.2.userId == r) = [] ∧
      (mkReports sid reasonArg now s rest).filter (fun e => e.2.userId == r) = [] := by
  intro rest
  induction rest with
  | nil => intro _ s; simp [mkReports]
  | cons a as ih =>
    intro h s
    simp only [List.mem_cons, not_or] at h
    have hne : ((mkRep sid reasonArg now a).userId == r) = false := by
      simp only [mkRep]
      exact beq_eq_false_iff_ne.mpr (fun hc => h.1 hc.symm)
    have hrec := ih h.2 (s + 1)
    simp only [mkReports, List.filter_cons, hne, Bool.and_false, Bool.false_eq_true,
      if_false]
    exact hrec

theorem mkReports_append (sid : Nat) (reasonArg : String) (now : Nat) :
    ∀ (rest : List Nat) (s r : Nat),
      mkReports sid reasonArg now s (rest ++ [r]) =
        mkReports sid reasonArg now s rest ++
          [(s + rest.length, mkRep sid reasonArg now r)] := by
  intro rest
  induction rest with
  | nil => intro s r; simp [mkReports]
  | cons a as ih =>
    intro s r
    have harith : s + (as.length + 1) = s + 1 + as.length := by omega
    simp only [List.cons_append, mkReports, List.append_eq, List.length_cons, harith,
      ih (s + 1) r]

theorem step_success (sid aid : Nat) (bodyS : String) (t0 : Nat) (reasonArg : String)
    (now : Nat) (done : List Nat) (r : Nat)
    (hre : jsTrim reasonArg ≠ "") (hr : r ∉ done) (hlen : done.length ≤ 3) :
    reportHandler (stateOf sid aid bodyS t0 reasonArg now done) r 0 reasonArg now =
      (stateOf sid aid bodyS t0 reasonArg now (done ++ [r]),
       .ok { reported := true, alreadyReported := false }) := by
  have hc : dbGetComment (stateOf sid aid bodyS t0 reasonArg now done) 0 =
      some (cAfter sid aid bodyS t0 now done.length) := by
    simp [stateOf, dbGetComment]
  have hvis := cAfter_visible sid aid bodyS t0 now done.length hlen
  have hst := getCommentStatus_of_visible hvis
  have hfil := mkReports_filter_not_mem sid reasonArg now r done hr 1
  have huniq : uniqueReportByCommentUser (stateOf sid aid bodyS t0 reasonArg now done)
      0 r = .ok none := by
    simp only [uniqueReportByCommentUser, stateOf, hfil.1]
  have hcount : countActiveReportsForUser (stateOf sid aid bodyS t0 reasonArg now done)
      r = 0 := by
    simp only [countActiveReportsForUser, reportsByUser, stateOf, hfil.2, List.map_nil]
    rfl
  simp only [reportHandler, hc, hst, hvis, hre, huniq, hcount,
    MAX_ACTIVE_REPORTS_PER_USER, AUTO_HIDE_REPORT_THRESHOLD, Bool.not_true,
    Bool.false_eq_true, if_false, reduceCtorEq, cAfter_reportCount, cAfter_skillId]
  have h03 : done.length = 0 ∨ done.length = 1 ∨ done.length = 2 ∨ done.length = 3 := by
    omega
  rcases h03 with hL | hL | hL | hL <;>
    simp only [stateOf, hL, insertCommentReport, patchCommentDoc, insertStatEvent,
      insertAuditLog, mkReports_append, List.length_append, List.length_cons,
      List.length_nil, List.getLast?_concat, cAfter, initComment, mkRep, seqReason,
      Option.getD_some] <;>
    norm_num

theorem step_hidden (sid aid : Nat) (bodyS : String) (t0 : Nat) (reasonArg : String)
    (now : Nat) (done : List Nat) (r : Nat) (h4 : done.length = 4) :
    reportHandler (stateOf sid aid bodyS t0 reasonArg now done) r 0 reasonArg now =
      (stateOf sid aid bodyS t0 reasonArg now done,
       .error "Comment is already hidden.") := by
  apply reportHandler_hidden _ _ _ (cAfter sid aid bodyS t0 now done.length)
  · simp [stateOf, dbGetComment]
  · rw [h4]
    simp [cAfter, getCommentStatus, initComment]
  · rw [h4]
    simp [cAfter, isCommentVisible, getCommentStatus, initComment]

theorem runReports_stateOf (sid aid : Nat) (bodyS : String) (t0 : Nat)
    (reasonArg : String) (now : Nat) (hre : jsTrim reasonArg ≠ "") :
    ∀ (pending done : List Nat), (done ++ pending).Nodup → done.length ≤ 4 →
      runReports reasonArg now (stateOf sid aid bodyS t0 reasonArg now done) pending =
        stateOf sid aid bodyS t0 reasonArg now
          (done ++ pending.take (4 - done.length)) := by
  intro pending
  induction pending with
  | nil => intro done _ _; simp [runReports]
  | cons r rest ih =>
    intro done hnd hlen
    by_cases h4 : done.length = 4
    · have hnd' : (done ++ rest).Nodup :=
        hnd.sublist ((List.sublist_cons_self r rest).append_left done)
      have hstep := step_hidden sid aid bodyS t0 reasonArg now done r h4
      have := ih done hnd' hlen
      simp only [runReports, hstep, this, h4, Nat.sub_self, List.take_zero]
    · have hlt : done.length ≤ 3 := by omega
      have hr : r ∉ done := by
        intro hmem
        exact (List.disjoint_of_nodup_append hnd) hmem (List.mem_cons_self r rest)
      have hstep := step_success sid aid bodyS t0 reasonArg now done r hre hr hlt
      have hnd' : ((done ++ [r]) ++ rest).Nodup := by
        simpa [List.append_assoc] using hnd
      have hlen' : (done ++ [r]).length ≤ 4 := by
        simp [List.length_append]
        omega
      have hrun := ih (done ++ [r]) hnd' hlen'
      simp only [runReports, hstep, hrun]
      congr 1
      rw [List.append_assoc]
      congr 1
      have : 4 - done.length = (4 - (done ++ [r]).length) + 1 := by
        simp [List.length_append]
        omega
      rw [this]
      simp [List.length_append, List.take_succ_cons]

/-- C1: for every sequence of distinct-reporter report calls against a
fresh visible comment, calls 1–3 succeed and leave the comment visible
with the incremented count and no stat or audit writes; the 4th call
(the one whose insertion makes the report count first exceed 3)
transitions the comment to hidden with reason auto.reports, emitting
exactly one uncomment stat event and exactly one auto-hide audit entry
in the same unit of work; every later call fails with the already-hidden
error and performs no write. -/
theorem report_auto_hide_exactly_once (sid aid : Nat) (bodyS : String) (t0 : Nat)
    (reasonArg : String) (now : Nat) (rs : List Nat)
    (hnd : rs.Nodup) (hre : jsTrim reasonArg ≠ "") (i : Nat) (hi : i < rs.length) :
    (i < 3 →
      (reportCallAt sid aid bodyS t0 reasonArg now rs i).2 =
        .ok { reported := true, alreadyReported := false } ∧
      (∃ c, dbGetComment (reportCallAt sid aid bodyS t0 reasonArg now rs i).1 0 =
          some c ∧ c.reportCount = some (i + 1) ∧ isCommentVisible c = true) ∧
      (reportCallAt sid aid bodyS t0 reasonArg now rs i).1.statEvents = [] ∧
      (reportCallAt sid aid bodyS t0 reasonArg now rs i).1.auditLogs = []) ∧
    (i = 3 →
      (reportCallAt sid aid bodyS t0 reasonArg now rs i).2 =
        .ok { reported := true, alreadyReported := false } ∧
      (∃ c, dbGetComment (reportCallAt sid aid bodyS t0 reasonArg now rs i).1 0 =
          some c ∧ c.moderationStatus = some CommentStatus.hidden ∧
          c.moderationReason = some "auto.reports" ∧
          c.reportCount = some 4 ∧ isCommentVisible c = false) ∧
      (reportCallAt sid aid bodyS t0 reasonArg now rs i).1.statEvents =
        [{ skillId := sid, kind := .uncomment }] ∧
      (reportCallAt sid aid bodyS t0 reasonArg now rs i).1.auditLogs.map
          (fun a => a.action) = ["comment.auto_hide"]) ∧
    (3 < i →
      reportCallAt sid aid bodyS t0 reasonArg now rs i =
        (runReports reasonArg now (initDB sid aid bodyS t0) (rs.take i),
         .error "Comment is already hidden.")) := by
  have hgetD : rs.getD i 0 = rs[i] := List.getD_eq_getElem rs 0 hi
  have hndS : (rs.take i ++ rs.drop i).Nodup := by
    rw [List.take_append_drop]
    exact hnd
  have hdisj := List.disjoint_of_nodup_append hndS
  have hdmem : rs[i] ∈ rs.drop i := by
    rw [List.drop_eq_getElem_cons hi]
    exact List.mem_cons_self _ _
  have hr : rs[i] ∉ rs.take i := fun hmem => hdisj hmem hdmem
  have h0 := runReports_stateOf sid aid bodyS t0 reasonArg now hre (rs.take i) []
    (by simpa using hnd.sublist (List.take_sublist i rs)) (by simp)
  rw [stateOf_nil] at h0
  simp only [List.nil_append, List.length_nil, Nat.sub_zero, List.take_take] at h0
  refine ⟨?_, ?_, ?_⟩
  · intro hi3
    have hmin : min 4 i = i := by omega
    rw [hmin] at h0
    have hlen : (rs.take i).length = i := by
      simp only [List.length_take]
      omega
    have hstep := step_success sid aid bodyS t0 reasonArg now (rs.take i) (rs[i]) hre hr
      (by rw [hlen]; omega)
    have hcall : reportCallAt sid aid bodyS t0 reasonArg now rs i =
        (stateOf sid aid bodyS t0 reasonArg now (rs.take i ++ [rs[i]]),
         .ok { reported := true, alreadyReported := false }) := by
      rw [reportCallAt, h0, hgetD, hstep]
    have hlen1 : (rs.take i ++ [rs[i]]).length = i + 1 := by
      rw [List.length_append, hlen]
      rfl
    refine ⟨by rw [hcall], ⟨cAfter sid aid bodyS t0 now (i + 1), ?_, ?_, ?_⟩, ?_, ?_⟩
    · rw [hcall]
      simp only [stateOf, hlen1]
      simp [dbGetComment]
    · exact cAfter_reportCount sid aid bodyS t0 now (i + 1)
    · exact cAfter_visible sid aid bodyS t0 now (i + 1) (by omega)
    · rw [hcall]
      simp only [stateOf, hlen1]
      rw [if_pos (by omega : i + 1 ≤ 3)]
    · rw [hcall]
      simp only [stateOf, hlen1]
      rw [if_pos (by omega : i + 1 ≤ 3)]
  · intro hi3
    subst hi3
    have hmin : min 4 3 = 3 := by omega
    rw [hmin] at h0
    have hlen : (rs.take 3).length = 3 := by
      simp only [List.length_take]
      omega
    have hstep := step_success sid aid bodyS t0 reasonArg now (rs.take 3) (rs[3]) hre hr
      (by rw [hlen])
    have hcall : reportCallAt sid aid bodyS t0 reasonArg now rs 3 =
        (stateOf sid aid bodyS t0 reasonArg now (rs.take 3 ++ [rs[3]]),
         .ok { reported := true, alreadyReported := false }) := by
      rw [reportCallAt, h0, hgetD, hstep]
    have hlen1 : (rs.take 3 ++ [rs[3]]).length = 4 := by
      rw [List.length_append, hlen]
      rfl
    refine ⟨by rw [hcall], ⟨cAfter sid aid bodyS t0 now 4, ?_, ?_, ?_, ?_, ?_⟩, ?_, ?_⟩
    · rw [hcall]
      simp only [stateOf, hlen1]
      simp [dbGetComment]
    · simp [cAfter, initComment]
    · simp [cAfter, initComment]
    · simp [cAfter, initComment]
    · simp [cAfter, isCommentVisible, getCommentStatus, initComment]
    · rw [hcall]
      simp only [stateOf, hlen1]
      simp
    · rw [hcall]
      simp only [stateOf, hlen1]
      simp
  · intro hi3
    have hmin : min 4 i = 4 := by omega
    rw [hmin] at h0
    have hlen4 : (rs.take 4).length = 4 := by
      simp only [List.length_take]
      omega
    have hstep := step_hidden sid aid bodyS t0 reasonArg now (rs.take 4) (rs.getD i 0)
      hlen4
    rw [reportCallAt, h0, hstep]

/-- Witness for C1: five distinct reporters against a fresh comment; the
4th call hides the comment and emits exactly one uncomment stat event
and one auto-hide audit entry. -/
theorem report_auto_hide_exactly_once_witness :
    (reportCallAt 1 2 "b" 0 "spam" 7 [10, 11, 12, 13, 14] 3).2 =
      .ok { reported := true, alreadyReported := false } ∧
    (reportCallAt 1 2 "b" 0 "spam" 7 [10, 11, 12, 13, 14] 3).1.statEvents =
      [{ skillId := 1, kind := .uncomment }] ∧
    (reportCallAt 1 2 "b" 0 "spam" 7 [10, 11, 12, 13, 14] 3).1.auditLogs.map
        (fun a => a.action) = ["comment.auto_hide"] :=
  have h := (report_auto_hide_exactly_once 1 2 "b" 0 "spam" 7 [10, 11, 12, 13, 14]
    (by decide) (by decide) 3 (by decide)).2.1 rfl
  ⟨h.1, h.2.2.1, h.2.2.2⟩
